import Mathlib

/-!
Shallow embedding of the PrivacyRPC core, translated from the Rust sources
(`src/desktop-app/src-tauri/src/transaction_decoder.rs`, `proxy.rs`, `tor.rs`),
together with theorems checking the natural-language specification against it.

Conventions of the embedding:
* machine integers (`u8`, `u16`, `u32`, `u64`, `usize`) are modelled as `ℕ`,
  with an explicit `% 2^w` exactly where the Rust operation can wrap
  (the only such place is the `third << 14` shift in `read_compact_u16`);
* byte slices are `List ℕ` whose elements are below 256 wherever that matters;
* `f64` amounts (SOL values obtained by dividing lamports by 10⁹ and summing)
  are modelled as `ℚ`;
* fallible Rust functions returning `Result<T, String>` become
  `Except String T`; `Option<T>` becomes `Option T`.
-/

/-! ## Data model (transaction_decoder.rs) -/

/-- Warning severity, from `enum WarningLevel`. -/
inductive WarningLevel where
  | Info
  | Warning
  | Danger
deriving DecidableEq, BEq

/-- Transaction risk grade, from `enum RiskLevel`. -/
inductive RiskLevel where
  | Low
  | Medium
  | High
  | Critical
deriving DecidableEq, BEq

/-- One warning attached to a decoded transaction, from `struct TransactionWarning`. -/
structure TransactionWarning where
  level : WarningLevel
  title : String
  message : String
deriving DecidableEq, BEq

/-- Per-instruction decoded payload, from `enum InstructionDetails`.
Rust field names `from`/`to` are keywords in Lean and appear as `from_`/`to_`. -/
inductive InstructionDetails where
  | SolTransfer (from_ : String) (to_ : String) (amount_lamports : ℕ) (amount_sol : ℚ)
  | TokenTransfer (from_ : String) (to_ : String) (amount : ℕ) (decimals : Option ℕ)
  | TokenApprove (source : String) (delegate : String) (amount : ℕ)
  | TokenRevoke (source : String)
  | SetComputeLimit (units : ℕ)
  | SetComputePrice (micro_lamports : ℕ)
  | Unknown (data_preview : String) (accounts : List String)
deriving DecidableEq, BEq

/-- Tests for the `Unknown` constructor, mirroring the Rust
`matches!(i.details, InstructionDetails::Unknown { .. })`. -/
def InstructionDetails.isUnknown : InstructionDetails → Bool
  | .Unknown _ _ => true
  | _ => false

/-- Tests for the `TokenApprove` constructor. -/
def InstructionDetails.isTokenApprove : InstructionDetails → Bool
  | .TokenApprove _ _ _ => true
  | _ => false

/-- Tests for the `SolTransfer` constructor. -/
def InstructionDetails.isSolTransfer : InstructionDetails → Bool
  | .SolTransfer _ _ _ _ => true
  | _ => false

/-- Tests for the `TokenTransfer` constructor. -/
def InstructionDetails.isTokenTransfer : InstructionDetails → Bool
  | .TokenTransfer _ _ _ _ => true
  | _ => false

/-- One decoded instruction, from `struct DecodedInstruction`. -/
structure DecodedInstruction where
  program : String
  program_id : String
  action : String
  details : InstructionDetails
deriving DecidableEq, BEq

/-- The decoder's result value, from `struct DecodedTransaction`. -/
structure DecodedTransaction where
  summary : String
  instructions : List DecodedInstruction
  warnings : List TransactionWarning
  accounts_involved : List String
  estimated_cost : Option ℚ
  risk_level : RiskLevel
deriving DecidableEq, BEq

/-- Decidable equality for `Except`, so the embedding can be evaluated on
concrete inputs. -/
instance exceptDecidableEq {ε α : Type} [DecidableEq ε] [DecidableEq α] :
    DecidableEq (Except ε α) := fun a b =>
  match a, b with
  | .error e, .error f =>
    if h : e = f then isTrue (by rw [h])
    else isFalse (by intro hh; injection hh; exact h (by assumption))
  | .ok x, .ok y =>
    if h : x = y then isTrue (by rw [h])
    else isFalse (by intro hh; injection hh; exact h (by assumption))
  | .error _, .ok _ => isFalse (fun hh => Except.noConfusion hh)
  | .ok _, .error _ => isFalse (fun hh => Except.noConfusion hh)

/-! ## Number and string utilities used by the decoder -/

/-- `u64::MAX` (and in general the largest 64-bit value). -/
def U64_MAX : ℕ := 18446744073709551615

/-- Little-endian byte-list to number, mirroring `uNN::from_le_bytes`:
the callers always pass a slice of exactly the right length. -/
def from_le_bytes (bs : List ℕ) : ℕ :=
  bs.foldr (fun b acc => acc * 256 + b) 0

/-- One lower-case hexadecimal digit. -/
def hexDigit (n : ℕ) : Char :=
  "0123456789abcdef".toList.getD n '0'

/-- Lower-case hex of a byte list, mirroring the `hex::encode` helper
(`format!("\x7b:02x\x7d", b)` per byte). -/
def hexEncode (bs : List ℕ) : String :=
  String.mk (bs.foldr (fun b acc => hexDigit (b / 16 % 16) :: hexDigit (b % 16) :: acc) [])

/-- The Bitcoin base58 alphabet used by the `bs58` crate. -/
def BASE58_ALPHABET : List Char :=
  "123456789ABCDEFGHJKLMNPQRSTUVWXYZabcdefghijkmnopqrstuvwxyz".toList

/-- Digit loop for `natToBase58`, structurally recursive on a fuel value;
any fuel at least the number being converted is enough, since the value
shrinks by a factor of 58 every step. -/
def natToBase58Go : ℕ → ℕ → List Char
  | 0, _ => []
  | _ + 1, 0 => []
  | fuel + 1, m + 1 =>
    natToBase58Go fuel ((m + 1) / 58) ++ [BASE58_ALPHABET.getD ((m + 1) % 58) '1']

/-- Big-endian base58 digit list of a number (empty for 0). -/
def natToBase58 (n : ℕ) : List Char :=
  natToBase58Go n n

/-- Big-endian byte-list to number. -/
def bytesToNatBE (bs : List ℕ) : ℕ :=
  bs.foldl (fun acc b => acc * 256 + b) 0

/-- `bs58::encode(bytes).into_string()`: each leading zero byte becomes `1`,
the remaining value is written in base58. -/
def bs58encode (bs : List ℕ) : String :=
  String.mk (List.replicate (bs.takeWhile (fun b => b == 0)).length '1'
    ++ natToBase58 (bytesToNatBE bs))

/-- Value of one base58 character, if valid. -/
def b58CharVal (c : Char) : Option ℕ :=
  BASE58_ALPHABET.indexOf? c

/-- Folds base58 characters into a value; fails on the first invalid character. -/
def bs58decodeAux : List Char → ℕ → Option ℕ
  | [], acc => some acc
  | c :: rest, acc =>
    match b58CharVal c with
    | none => none
    | some v => bs58decodeAux rest (acc * 58 + v)

/-- Byte loop for `natToBytesBE`, structurally recursive on a fuel value;
any fuel at least the number being converted is enough. -/
def natToBytesBEGo : ℕ → ℕ → List ℕ
  | 0, _ => []
  | _ + 1, 0 => []
  | fuel + 1, m + 1 =>
    natToBytesBEGo fuel ((m + 1) / 256) ++ [(m + 1) % 256]

/-- Big-endian bytes of a number (empty for 0). -/
def natToBytesBE (n : ℕ) : List ℕ :=
  natToBytesBEGo n n

/-- `bs58::decode(s).into_vec()`: leading `1` characters become zero bytes,
the rest is read as a base58 number. -/
def bs58decode (s : String) : Option (List ℕ) :=
  match bs58decodeAux s.toList 0 with
  | none => none
  | some n =>
    some (List.replicate (s.toList.takeWhile (fun c => c == '1')).length 0
      ++ natToBytesBE n)

/-- The standard base64 alphabet. -/
def B64_ALPHABET : List Char :=
  "ABCDEFGHIJKLMNOPQRSTUVWXYZabcdefghijklmnopqrstuvwxyz0123456789+/".toList

/-- Value of one base64 character, if valid (`=` is handled by the caller). -/
def b64CharVal (c : Char) : Option ℕ :=
  B64_ALPHABET.indexOf? c

/-- Decodes base64 text four characters at a time, mirroring the
`base64` crate's `STANDARD` engine: canonical `=` padding is required, it may
appear only in the final quad, and non-zero trailing bits are rejected. -/
def base64decodeChunks : List Char → Option (List ℕ)
  | [] => some []
  | c0 :: c1 :: c2 :: c3 :: rest =>
    match b64CharVal c0, b64CharVal c1 with
    | some v0, some v1 =>
      if c2 == '=' then
        if c3 == '=' && rest.isEmpty then
          if v1 % 16 == 0 then some [v0 * 4 + v1 / 16] else none
        else none
      else
        match b64CharVal c2 with
        | none => none
        | some v2 =>
          if c3 == '=' then
            if rest.isEmpty then
              if v2 % 4 == 0 then
                some [v0 * 4 + v1 / 16, v1 % 16 * 16 + v2 / 4]
              else none
            else none
          else
            match b64CharVal c3 with
            | none => none
            | some v3 =>
              match base64decodeChunks rest with
              | none => none
              | some bs =>
                some ([v0 * 4 + v1 / 16, v1 % 16 * 16 + v2 / 4, v2 % 4 * 64 + v3] ++ bs)
    | _, _ => none
  | _ => none

/-- `BASE64.decode(s)` for the standard engine. -/
def base64decode (s : String) : Option (List ℕ) :=
  base64decodeChunks s.toList

/-- True for UTF-8 continuation bytes `0x80..=0xBF`. -/
def utf8Cont (b : ℕ) : Bool :=
  128 ≤ b && b ≤ 191

/-- UTF-8 decoding with U+FFFD replacement, mirroring `String::from_utf8_lossy`
(the WHATWG maximal-subpart rule: an invalid sequence yields one replacement
character and decoding resumes at the offending byte). -/
def utf8LossyAux : List ℕ → List Char
  | [] => []
  | b :: rest =>
    if b ≤ 127 then
      Char.ofNat b :: utf8LossyAux rest
    else if 194 ≤ b && b ≤ 223 then
      match h1 : rest with
      | [] => ['�']
      | b1 :: rest1 =>
        if utf8Cont b1 then
          Char.ofNat ((b - 192) * 64 + (b1 - 128)) :: utf8LossyAux rest1
        else '�' :: utf8LossyAux rest
    else if 224 ≤ b && b ≤ 239 then
      match h1 : rest with
      | [] => ['�']
      | b1 :: rest1 =>
        if (b == 224 && (160 ≤ b1 && b1 ≤ 191))
            || (225 ≤ b && b ≤ 236 && utf8Cont b1)
            || (b == 237 && (128 ≤ b1 && b1 ≤ 159))
            || (238 ≤ b && b ≤ 239 && utf8Cont b1) then
          match h2 : rest1 with
          | [] => ['�']
          | b2 :: rest2 =>
            if utf8Cont b2 then
              Char.ofNat ((b - 224) * 4096 + (b1 - 128) * 64 + (b2 - 128)) :: utf8LossyAux rest2
            else '�' :: utf8LossyAux rest1
        else '�' :: utf8LossyAux rest
    else if 240 ≤ b && b ≤ 244 then
      match h1 : rest with
      | [] => ['�']
      | b1 :: rest1 =>
        if (b == 240 && (144 ≤ b1 && b1 ≤ 191))
            || (241 ≤ b && b ≤ 243 && utf8Cont b1)
            || (b == 244 && (128 ≤ b1 && b1 ≤ 143)) then
          match h2 : rest1 with
          | [] => ['�']
          | b2 :: rest2 =>
            if utf8Cont b2 then
              match h3 : rest2 with
              | [] => ['�']
              | b3 :: rest3 =>
                if utf8Cont b3 then
                  Char.ofNat ((b - 240) * 262144 + (b1 - 128) * 4096 + (b2 - 128) * 64 + (b3 - 128))
                    :: utf8LossyAux rest3
                else '�' :: utf8LossyAux rest2
            else '�' :: utf8LossyAux rest1
        else '�' :: utf8LossyAux rest
    else '�' :: utf8LossyAux rest
termination_by bs => bs.length
decreasing_by all_goals (subst_vars <;> simp_all [List.length_cons] <;> omega)

/-- `String::from_utf8_lossy(data).to_string()`. -/
def from_utf8_lossy (bs : List ℕ) : String :=
  String.mk (utf8LossyAux bs)

/-- Left-pads a digit string with zeros to the requested width. -/
def padLeftZeros (s : String) (n : ℕ) : String :=
  String.mk (List.replicate (n - s.length) '0') ++ s

/-- Fixed-precision decimal rendering of a non-negative rational, mirroring
Rust's `format!("\x7b:.Np\x7d", x)` on the modelled amounts (round half to even). -/
def formatFixed (q : ℚ) (places : ℕ) : String :=
  let scaled : ℚ := q * ((10 : ℚ) ^ places)
  let fl : ℤ := Rat.floor scaled
  let frac : ℚ := scaled - (fl : ℚ)
  let n : ℤ :=
    if frac > 1 / 2 then fl + 1
    else if frac < 1 / 2 then fl
    else if fl % 2 = 0 then fl else fl + 1
  let m : ℕ := n.toNat
  if places = 0 then toString (m)
  else toString (m / 10 ^ places) ++ "." ++ padLeftZeros (toString (m % 10 ^ places)) places

/-! ## Transaction decoder (transaction_decoder.rs) -/

/-- Well-known program id constant. -/
def SYSTEM_PROGRAM : String := "11111111111111111111111111111111"

/-- Well-known program id constant. -/
def TOKEN_PROGRAM : String := "TokenkegQfeZyiNwAJbNbGKPFXCWuBvf9Ss623VQ5DA"

/-- Well-known program id constant. -/
def TOKEN_2022_PROGRAM : String := "TokenzQdBNbLqP5VEhdkAS6EPFLC1PHnBqCXEpPxuEb"

/-- Well-known program id constant. -/
def MEMO_PROGRAM : String := "MemoSq4gqABAXKb96qnH8TysNcWxMyWCqXgDLGmfcHr"

/-- Well-known program id constant. -/
def COMPUTE_BUDGET_PROGRAM : String := "ComputeBudget111111111111111111111111111111"

/-- The known drainer/scam program list; empty in the source. -/
def SUSPICIOUS_PROGRAMS : List String := []

/-- `read_compact_u16`: Solana's 1-to-3-byte variable-length u16.
The Rust shift `third << 14` is a `u16` shift and drops the high bits of
`third`; that wrap is the `% 65536`. -/
def read_compact_u16 (bytes : List ℕ) (offset : ℕ) : Except String (ℕ × ℕ) :=
  match bytes.get? offset with
  | none => .error ("Offset out of bounds")
  | some first =>
    if first < 128 then .ok (first, 1)
    else
      match bytes.get? (offset + 1) with
      | none => .error ("Compact-u16 truncated")
      | some second =>
        if second < 128 then .ok ((first &&& 127) ||| (second <<< 7), 2)
        else
          match bytes.get? (offset + 2) with
          | none => .error ("Compact-u16 truncated")
          | some third =>
            .ok ((first &&& 127) ||| ((second &&& 127) <<< 7) ||| ((third <<< 14) % 65536), 3)

/-- Resolution of a message-level account index, mirroring
`account_keys.get(i).cloned().unwrap_or_else(|| "Unknown".to_string())`. -/
def lookupAccountKey (account_keys : List String) (i : ℕ) : String :=
  match account_keys.get? i with
  | some s => s
  | none => "Unknown"

/-- The `get_account` closure of `decode_instruction`: the instruction-local
index `idx` selects a message-level index, which selects a key; any
out-of-range step yields `"Unknown"`. -/
def get_account (account_indices : List ℕ) (account_keys : List String) (idx : ℕ) : String :=
  match (account_indices.get? idx).bind (fun i => account_keys.get? i) with
  | some s => s
  | none => "Unknown"

/-- `decode_system_instruction`. -/
def decode_system_instruction (data : List ℕ) (get_acc : ℕ → String) : DecodedInstruction :=
  if data.isEmpty then
    { program := "System", program_id := SYSTEM_PROGRAM, action := "Unknown",
      details := .Unknown "" [] }
  else
    let instruction_type := if data.length ≥ 4 then from_le_bytes (data.take 4) else data.getD 0 0
    match instruction_type with
    | 2 =>
      let lamports := if data.length ≥ 12 then from_le_bytes ((data.drop 4).take 8) else 0
      let sol : ℚ := (lamports : ℚ) / 1000000000
      { program := "System", program_id := SYSTEM_PROGRAM,
        action := "Transfer " ++ formatFixed sol 6 ++ " SOL",
        details := .SolTransfer (get_acc 0) (get_acc 1) lamports sol }
    | 0 =>
      { program := "System", program_id := SYSTEM_PROGRAM, action := "Create Account",
        details := .Unknown (hexEncode data) [get_acc 0, get_acc 1] }
    | 1 =>
      { program := "System", program_id := SYSTEM_PROGRAM, action := "Assign",
        details := .Unknown (hexEncode data) [get_acc 0] }
    | t =>
      { program := "System", program_id := SYSTEM_PROGRAM,
        action := "System Instruction #" ++ toString t,
        details := .Unknown (hexEncode data) [] }

/-- `decode_token_instruction`. -/
def decode_token_instruction (data : List ℕ) (get_acc : ℕ → String) (program_id : String) :
    DecodedInstruction :=
  if data.isEmpty then
    { program := "Token", program_id := program_id, action := "Unknown",
      details := .Unknown "" [] }
  else
    match data.getD 0 0 with
    | 3 =>
      let amount := if data.length ≥ 9 then from_le_bytes ((data.drop 1).take 8) else 0
      { program := "Token", program_id := program_id,
        action := "Transfer " ++ toString amount ++ " tokens",
        details := .TokenTransfer (get_acc 0) (get_acc 1) amount none }
    | 4 =>
      let amount := if data.length ≥ 9 then from_le_bytes ((data.drop 1).take 8) else 0
      { program := "Token", program_id := program_id,
        action := if amount = U64_MAX then "Approve UNLIMITED tokens"
          else "Approve " ++ toString amount ++ " tokens",
        details := .TokenApprove (get_acc 0) (get_acc 1) amount }
    | 5 =>
      { program := "Token", program_id := program_id, action := "Revoke Approval",
        details := .TokenRevoke (get_acc 0) }
    | 12 =>
      let amount := if data.length ≥ 9 then from_le_bytes ((data.drop 1).take 8) else 0
      let decimals := if data.length ≥ 10 then some (data.getD 9 0) else none
      { program := "Token", program_id := program_id,
        action := "Transfer " ++ toString amount ++ " tokens (checked)",
        details := .TokenTransfer (get_acc 0) (get_acc 2) amount decimals }
    | t =>
      { program := "Token", program_id := program_id,
        action := "Token Instruction #" ++ toString t,
        details := .Unknown (hexEncode data) [] }

/-- `decode_compute_budget_instruction`. -/
def decode_compute_budget_instruction (data : List ℕ) : DecodedInstruction :=
  if data.isEmpty then
    { program := "Compute Budget", program_id := COMPUTE_BUDGET_PROGRAM, action := "Unknown",
      details := .Unknown "" [] }
  else
    match data.getD 0 0 with
    | 2 =>
      let units := if data.length ≥ 5 then from_le_bytes ((data.drop 1).take 4) else 0
      { program := "Compute Budget", program_id := COMPUTE_BUDGET_PROGRAM,
        action := "Set compute limit to " ++ toString units ++ " units",
        details := .SetComputeLimit units }
    | 3 =>
      let micro_lamports := if data.length ≥ 9 then from_le_bytes ((data.drop 1).take 8) else 0
      { program := "Compute Budget", program_id := COMPUTE_BUDGET_PROGRAM,
        action := "Set priority fee to " ++ toString micro_lamports ++ " micro-lamports/CU",
        details := .SetComputePrice micro_lamports }
    | t =>
      { program := "Compute Budget", program_id := COMPUTE_BUDGET_PROGRAM,
        action := "Compute Budget #" ++ toString t,
        details := .Unknown (hexEncode data) [] }

/-- `shorten_address`. -/
def shorten_address (addr : String) : String :=
  if addr.length > 12 then
    String.mk (addr.toList.take 4) ++ "..." ++ String.mk (addr.toList.drop (addr.length - 4))
  else addr

/-- `decode_instruction`: dispatch on the program id. -/
def decode_instruction (program_id : String) (account_indices : List ℕ) (data : List ℕ)
    (account_keys : List String) : DecodedInstruction :=
  if program_id == SYSTEM_PROGRAM then
    decode_system_instruction data (get_account account_indices account_keys)
  else if program_id == TOKEN_PROGRAM || program_id == TOKEN_2022_PROGRAM then
    decode_token_instruction data (get_account account_indices account_keys) program_id
  else if program_id == COMPUTE_BUDGET_PROGRAM then
    decode_compute_budget_instruction data
  else if program_id == MEMO_PROGRAM then
    { program := "Memo", program_id := program_id, action := "Add Memo",
      details := .Unknown (from_utf8_lossy data)
        (account_indices.filterMap (fun i => account_keys.get? i)) }
  else
    { program := shorten_address program_id, program_id := program_id,
      action := "Unknown Program Call",
      details := .Unknown
        (if data.length > 32 then hexEncode (data.take 32) ++ "..." else hexEncode data)
        (account_indices.filterMap (fun i => account_keys.get? i)) }

/-- `calculate_risk_level`. -/
def calculate_risk_level (instructions : List DecodedInstruction)
    (warnings : List TransactionWarning) (total_sol_out : ℚ) : RiskLevel :=
  if warnings.any (fun w => w.level == WarningLevel.Danger) then RiskLevel.Critical
  else if total_sol_out > 10 then RiskLevel.High
  else if total_sol_out > 1 then RiskLevel.Medium
  else if 3 < (instructions.filter (fun i => i.details.isUnknown)).length then RiskLevel.Medium
  else if instructions.any (fun i => i.details.isTokenApprove) then RiskLevel.Medium
  else RiskLevel.Low

/-- `generate_summary`. -/
def generate_summary (instructions : List DecodedInstruction) (total_sol_out : ℚ)
    (_num_sigs : ℕ) : String :=
  let sol_transfers := (instructions.filter (fun i => i.details.isSolTransfer)).length
  let token_transfers := (instructions.filter (fun i => i.details.isTokenTransfer)).length
  let approvals := (instructions.filter (fun i => i.details.isTokenApprove)).length
  let unknown := (instructions.filter (fun i => i.details.isUnknown)).length
  let parts : List String :=
    (if sol_transfers > 0 then ["Transfer " ++ formatFixed total_sol_out 4 ++ " SOL"] else [])
    ++ (if token_transfers > 0 then
        [toString token_transfers ++ " token transfer" ++ (if token_transfers > 1 then "s" else "")]
      else [])
    ++ (if approvals > 0 then
        [toString approvals ++ " token approval" ++ (if approvals > 1 then "s" else "")]
      else [])
    ++ (if unknown > 0 then
        [toString unknown ++ " program call" ++ (if unknown > 1 then "s" else "")]
      else [])
  if parts.isEmpty then "Transaction with no detected transfers"
  else String.intercalate (", ") parts

/-- The account-keys loop of `parse_message`: reads `n` 32-byte pubkeys
starting at `offset`, base58-encoding each; errors when fewer than 32 bytes
remain for one of them. Returns the keys and the final offset. -/
def readAccountKeys (bytes : List ℕ) : ℕ → ℕ → Except String (List String × ℕ)
  | offset, 0 => .ok ([], offset)
  | offset, Nat.succ k =>
    if offset + 32 > bytes.length then .error ("Account keys truncated")
    else
      match readAccountKeys bytes (offset + 32) k with
      | .error e => .error e
      | .ok (rest, off) => .ok (bs58encode ((bytes.drop offset).take 32) :: rest, off)

/-- The account-indices loop inside the instruction loop of `parse_message`:
reads up to `n` single-byte indices, stopping early at end of input.
Returns the indices and the final offset. -/
def readIndices (bytes : List ℕ) : ℕ → ℕ → List ℕ × ℕ
  | offset, 0 => ([], offset)
  | offset, Nat.succ k =>
    if offset ≥ bytes.length then ([], offset)
    else
      let r := readIndices bytes (offset + 1) (k)
      (bytes.getD offset 0 :: r.1, r.2)

/-- The instruction loop of `parse_message`: for each of the `n` declared
instructions it reads the program-id index, the account indices, and the
data (treated as empty when its declared length overruns the input), decodes
the instruction, and collects the suspicious-program / token-approval
warnings and the SOL outflow. The loop stops early (without error) when
`offset` has reached the end of the input. -/
def parseInstructions (bytes : List ℕ) (account_keys : List String) :
    ℕ → ℕ → Except String (List DecodedInstruction × List TransactionWarning × ℚ)
  | _offset, 0 => .ok ([], [], 0)
  | offset, Nat.succ k =>
    if offset ≥ bytes.length then .ok ([], [], 0)
    else
      let program_id := lookupAccountKey account_keys (bytes.getD offset 0)
      match read_compact_u16 bytes (offset + 1) with
      | .error e => .error e
      | .ok (num_accounts, len) =>
        let ri := readIndices bytes (offset + 1 + len) num_accounts
        match read_compact_u16 bytes ri.2 with
        | .error e => .error e
        | .ok (data_len, len2) =>
          let offset3 := ri.2 + len2
          let instruction_data :=
            if offset3 + data_len ≤ bytes.length then (bytes.drop offset3).take data_len else []
          let decoded := decode_instruction program_id ri.1 instruction_data account_keys
          let sol : ℚ :=
            match decoded.details with
            | .SolTransfer _ _ _ amount_sol => amount_sol
            | _ => 0
          let warns : List TransactionWarning :=
            (if SUSPICIOUS_PROGRAMS.contains program_id then
              [{ level := WarningLevel.Danger, title := "Known Malicious Program",
                 message := "This transaction interacts with a known drainer: " ++ program_id }]
            else [])
            ++ (match decoded.details with
              | .TokenApprove _ _ amount =>
                if amount = U64_MAX then
                  [{ level := WarningLevel.Danger, title := "Unlimited Token Approval",
                     message := "This approves UNLIMITED tokens to be spent. This is extremely risky!" }]
                else if amount > 1000000000 then
                  [{ level := WarningLevel.Warning, title := "Large Token Approval",
                     message := "Approving " ++ toString amount ++ " tokens - verify this is intended." }]
                else []
              | _ => [])
          match parseInstructions bytes account_keys (offset3 + data_len) k with
          | .error e => .error e
          | .ok (instrs, warnings, total) =>
            .ok (decoded :: instrs, warns ++ warnings, sol + total)

/-- `parse_message`: header, account keys, blockhash, instruction loop, then
risk level, summary, and the high-value warning appended after grading. -/
def parse_message (bytes : List ℕ) (_num_signatures : ℕ) : Except String DecodedTransaction :=
  if bytes.isEmpty then .error ("Empty message")
  else if bytes.length < 3 then .error ("Message header too short")
  else
    match read_compact_u16 bytes 3 with
    | .error e => .error e
    | .ok (num_accounts, len) =>
      match readAccountKeys bytes (3 + len) num_accounts with
      | .error e => .error e
      | .ok (account_keys, off1) =>
        if off1 + 32 > bytes.length then .error ("Recent blockhash truncated")
        else
          match read_compact_u16 bytes (off1 + 32) with
          | .error e => .error e
          | .ok (num_instructions, len2) =>
            match parseInstructions bytes account_keys (off1 + 32 + len2) num_instructions with
            | .error e => .error e
            | .ok (instructions, warnings, total_sol_out) =>
              .ok { summary := generate_summary instructions total_sol_out (bytes.getD 0 0),
                    instructions := instructions,
                    warnings := warnings ++
                      (if total_sol_out > 1 then
                        [{ level := WarningLevel.Warning, title := "High Value Transaction",
                           message := "This transaction sends " ++ formatFixed total_sol_out 4
                             ++ " SOL" }]
                      else []),
                    accounts_involved := account_keys,
                    estimated_cost := some total_sol_out,
                    risk_level := calculate_risk_level instructions warnings total_sol_out }

/-- `parse_transaction_bytes`: strips the signature section and parses the
message. -/
def parse_transaction_bytes (bytes : List ℕ) : Except String DecodedTransaction :=
  if bytes.length < 4 then .error ("Transaction too short")
  else
    match read_compact_u16 bytes 0 with
    | .error e => .error e
    | .ok (num_signatures, sig_len) =>
      if sig_len + num_signatures * 64 ≥ bytes.length then
        .error ("Transaction truncated after signatures")
      else parse_message (bytes.drop (sig_len + num_signatures * 64)) num_signatures

/-- `decode_transaction`: base64 first, then base58, then the parse. -/
def decode_transaction (encoded : String) : Except String DecodedTransaction :=
  match base64decode encoded with
  | some tx_bytes => parse_transaction_bytes tx_bytes
  | none =>
    match bs58decode encoded with
    | some tx_bytes => parse_transaction_bytes tx_bytes
    | none => .error ("Failed to decode transaction: not valid base64 or base58")

/-! ## Proxy routing and control endpoints (proxy.rs) -/

/-- The Jito-only RPC method names, `JITO_METHODS` in `handle_connection`. -/
def JITO_METHODS : List String :=
  ["getTipAccounts", "sendBundle", "getBundleStatuses", "simulateBundle",
   "getInflightBundleStatuses"]

/-- `JITO_MAINNET_URL`. -/
def JITO_MAINNET_URL : String := "https://mainnet.block-engine.jito.wtf/api/v1/bundles"

/-- The hard-coded default upstream of `handle_connection`. -/
def DEFAULT_SOLANA_RPC : String := "https://api.mainnet-beta.solana.com"

/-- `is_jito_method` in `handle_connection`: the request body's `.method`
(absent when the body is not JSON or has no string method) is compared
against `JITO_METHODS`. -/
def is_jito_method (rpc_method : Option String) : Bool :=
  match rpc_method with
  | some m => JITO_METHODS.any (fun jm => m == jm)
  | none => false

/-- `final_target` in `handle_connection`: Jito methods go to the Jito block
engine; otherwise a configured `rpc_endpoint` wins; otherwise the
`X-Target-URL` header; otherwise the default Solana RPC. -/
def final_target (rpc_method : Option String) (rpc_endpoint : Option String)
    (target_url_header : Option String) : String :=
  if is_jito_method rpc_method then JITO_MAINNET_URL
  else
    match rpc_endpoint with
    | some private_endpoint => private_endpoint
    | none =>
      match target_url_header with
      | some header_url => header_url
      | none => DEFAULT_SOLANA_RPC

/-- The literal `GET /health` response written by `handle_connection`
(status line, three headers with a hard-coded `Content-Length: 35`, then
the JSON body). -/
def healthResponse : String :=
  "HTTP/1.1 200 OK\r\nContent-Type: application/json\r\nAccess-Control-Allow-Origin: *\r\nContent-Length: 35\r\n\r\n\x7b\"status\":\"ok\",\"proxy\":\"running\"\x7d"

/-- The body part of the `GET /health` response. -/
def healthBody : String := "\x7b\"status\":\"ok\",\"proxy\":\"running\"\x7d"

/-- The `Content-Length` value declared in the `GET /health` response. -/
def healthDeclaredContentLength : ℕ := 35

/-- `set_rpc_endpoint` (proxy.rs): stores the given optional endpoint into
`PROXY_CONFIG.rpc_endpoint` unchanged; returns the new cell value. -/
def set_rpc_endpoint (_current : Option String) (endpoint : Option String) : Option String :=
  endpoint

/-- The `POST /control/set_rpc` branch of `handle_control_endpoint`: after
JSON-parsing the body, `url` is the body's `"url"` field read as an optional
string, and the branch calls `set_rpc_endpoint(url)` with no validation.
Returns the new `rpc_endpoint` value. -/
def control_set_rpc (url : Option String) (current : Option String) : Option String :=
  set_rpc_endpoint current url

/-- `str::trim` on character lists (ASCII/basic whitespace). -/
def strTrim (s : String) : String :=
  String.mk (((s.toList.dropWhile Char.isWhitespace).reverse.dropWhile
    Char.isWhitespace).reverse)

/-- `str::starts_with` on character lists. -/
def strStartsWith (s p : String) : Bool :=
  p.toList.isPrefixOf s.toList

/-- The `set_rpc_endpoint` Tauri command (main.rs): trims the string, clears
the endpoint when empty, rejects values that start with neither `http://`
nor `https://` (leaving the state unchanged, modelled as `.error`), and
stores the trimmed value otherwise. -/
def tauri_set_rpc_endpoint (endpoint : String) (_current : Option String) :
    Except String (Option String) :=
  if (strTrim endpoint).isEmpty then .ok none
  else if ¬(strStartsWith (strTrim endpoint) ("http://")
      || strStartsWith (strTrim endpoint) ("https://")) then
    .error ("RPC endpoint must be a valid URL starting with http:// or https://")
  else .ok (some (strTrim endpoint))

/-! ## Relay supervisor log parsing (tor.rs) -/

/-- Index of the first occurrence of `pat` in a character list, mirroring
`str::find` on ASCII text. -/
def findSubstrAux (pat : List Char) : List Char → ℕ → Option ℕ
  | [], i => if pat.isEmpty then some i else none
  | c :: rest, i =>
    if pat.isPrefixOf (c :: rest) then some i else findSubstrAux pat rest (i + 1)

/-- Index of the first occurrence of `pat` in `s`. -/
def findSubstr (s pat : List Char) : Option ℕ :=
  findSubstrAux pat s 0

/-- Whitespace-trims a character list, mirroring `str::trim`. -/
def trimChars (cs : List Char) : List Char :=
  ((cs.dropWhile Char.isWhitespace).reverse.dropWhile Char.isWhitespace).reverse

/-- Digit part of `u8::from_str`: one or more decimal digits whose value
fits in a `u8`. -/
def parseU8Digits (ds : List Char) : Option ℕ :=
  if ds.isEmpty then none
  else if ds.all (fun c => c.isDigit) then
    if ds.foldl (fun acc c => acc * 10 + (c.toNat - 48)) 0 < 256 then
      some (ds.foldl (fun acc c => acc * 10 + (c.toNat - 48)) 0)
    else none
  else none

/-- `u8::from_str`: an optional leading `+`, then one or more decimal digits,
rejected when the value overflows `u8` (is at least 256). -/
def parseU8 (cs : List Char) : Option ℕ :=
  match cs with
  | '+' :: rest => parseU8Digits rest
  | _ => parseU8Digits cs

/-- `parse_bootstrap_progress` (tor.rs): finds `"Bootstrapped "`, takes the
text up to the next `%`, trims it, and parses it as a `u8`. -/
def parse_bootstrap_progress (line : String) : Option ℕ :=
  match findSubstr line.toList ("Bootstrapped ".toList) with
  | none => none
  | some start =>
    match findSubstr (line.toList.drop (start + 13)) ['%'] with
    | none => none
    | some pct_end => parseU8 (trimChars ((line.toList.drop (start + 13)).take pct_end))

/-- One step of the bootstrap-watch loop in `TorManager::start`: a line that
parses updates the stored `bootstrap_progress`, any other line leaves it. -/
def updateProgress (progress : ℕ) (line : String) : ℕ :=
  match parse_bootstrap_progress line with
  | some p => p
  | none => progress

/-- The stored `bootstrap_progress` after a sequence of relay stdout lines. -/
def runLines (lines : List String) (init : ℕ) : ℕ :=
  lines.foldl updateProgress init

/-! ## Definitions written from the specification text (for comparison) -/

/-- Modelled from the spec: the canonical `compactU16` encoding (low 7 bits
per byte, high bit set on every byte that has a successor; 1 byte below
0x80, 2 bytes up to 0x3FFF, 3 bytes above). The decoder is compared against
this encoder for the round-trip claim. -/
def encodeCompactU16 (v : ℕ) : List ℕ :=
  if v < 128 then [v]
  else if v < 16384 then [v % 128 + 128, v / 128]
  else [v % 128 + 128, v / 128 % 128 + 128, v / 16384]

/-- Modelled from the spec: the §4.4.3 risk rules as an ordered list of
(antecedent, grade) pairs whose first match is the grade. -/
def riskGradeRules (instructions : List DecodedInstruction)
    (warnings : List TransactionWarning) (total_sol_out : ℚ) : List (Bool × RiskLevel) :=
  [ (warnings.any (fun w => w.level == WarningLevel.Danger), RiskLevel.Critical),
    (decide (total_sol_out > 10), RiskLevel.High),
    (decide (total_sol_out > 1), RiskLevel.Medium),
    (decide (3 < (instructions.filter (fun i => i.details.isUnknown)).length), RiskLevel.Medium),
    (instructions.any (fun i => i.details.isTokenApprove), RiskLevel.Medium),
    (true, RiskLevel.Low) ]

/-- The grade of the first rule whose antecedent holds, if any. -/
def firstMatchingRule (rules : List (Bool × RiskLevel)) : Option RiskLevel :=
  (rules.find? (fun r => r.1)).map (fun r => r.2)

/-! ## Concrete inputs used by the claims -/

/-- The 32 raw bytes whose base58 encoding is the Token program id. -/
def tokenProgramBytes : List ℕ :=
  [6, 221, 246, 225, 215, 101, 161, 147, 217, 203, 225, 70, 206, 235, 121, 172,
   28, 180, 133, 237, 95, 91, 55, 145, 58, 140, 245, 133, 126, 255, 0, 169]

/-- A serialized transaction with zero signatures and a single Token-program
`Approve` instruction (discriminator 4) whose amount is `u64::MAX`:
header, three account keys (two dummies and the Token program), a zero
blockhash, and one instruction with accounts `[0, 1]` and data
`[4, 0xFF × 8]`. -/
def c2Bytes : List ℕ :=
  [0]
  ++ [1, 0, 0]
  ++ [3]
  ++ List.replicate 32 1 ++ List.replicate 32 2 ++ tokenProgramBytes
  ++ List.replicate 32 0
  ++ [1]
  ++ [2]
  ++ [2, 0, 1]
  ++ [9]
  ++ [4] ++ List.replicate 8 255

/-- A serialized transaction truncated inside the instruction list: zero
signatures, a header, zero account keys, a zero blockhash, and a declared
count of five instructions followed by no bytes at all. -/
def c6CountOverrunBytes : List ℕ :=
  [0] ++ [1, 0, 0] ++ [0] ++ List.replicate 32 0 ++ [5]

/-- A serialized transaction whose single instruction declares 50 data bytes
but provides none: zero signatures, a header, one account key, a zero
blockhash, then program index 0, zero account indices, and data length 50
with no data following. -/
def c6DataOverrunBytes : List ℕ :=
  [0] ++ [1, 0, 0] ++ [1] ++ List.replicate 32 7 ++ List.replicate 32 0
  ++ [1] ++ [0] ++ [0] ++ [50]

/-- A minimal well-formed message: header, no account keys, a zero blockhash,
no instructions. Used to instantiate hypotheses about `parse_message`. -/
def emptyMessageBytes : List ℕ :=
  [1, 0, 0] ++ [0] ++ List.replicate 32 0 ++ [0]

/-- The decode of `emptyMessageBytes`: no instructions, no warnings, zero
cost, `Low` risk. -/
def emptyMessageDecoded : DecodedTransaction :=
  { summary := "Transaction with no detected transfers",
    instructions := [],
    warnings := [],
    accounts_involved := [],
    estimated_cost := some 0,
    risk_level := RiskLevel.Low }

/-! ## Helper lemmas -/

/-- Bitwise-or of a value below `2^k` with a `k`-shifted value is their sum. -/
theorem lor_shiftLeft_eq_add (k x c : ℕ) (h : x < 2 ^ k) :
    x ||| (c <<< k) = x + 2 ^ k * c := by
  have hmod : (x ||| (c <<< k)) % 2 ^ k = x := by
    apply Nat.eq_of_testBit_eq
    intro i
    rw [Nat.testBit_mod_two_pow, Nat.testBit_lor, Nat.testBit_shiftLeft]
    by_cases hi : i < k
    · have hik : ¬(i ≥ k) := by omega
      simp [hi, hik]
    · have hx : x.testBit i = false :=
        Nat.testBit_eq_false_of_lt
          (lt_of_lt_of_le h (Nat.pow_le_pow_right (by norm_num) (by omega)))
      simp [hi, hx]
  have hdiv : (x ||| (c <<< k)) / 2 ^ k = c := by
    rw [← Nat.shiftRight_eq_div_pow]
    apply Nat.eq_of_testBit_eq
    intro i
    rw [Nat.testBit_shiftRight, Nat.testBit_lor, Nat.testBit_shiftLeft]
    have hx : x.testBit (k + i) = false :=
      Nat.testBit_eq_false_of_lt
        (lt_of_lt_of_le h (Nat.pow_le_pow_right (by norm_num) (by omega)))
    have hk : k ≤ k + i := by omega
    simp [hx, hk]
  have hsplit := Nat.div_add_mod (x ||| (c <<< k)) (2 ^ k)
  rw [hdiv, hmod] at hsplit
  omega

/-- Masking with `0x7f` is reduction modulo 128. -/
theorem land_127_eq_mod (x : ℕ) : x &&& 127 = x % 128 := by
  apply Nat.eq_of_testBit_eq
  intro i
  rw [Nat.testBit_land, show (127 : ℕ) = 2 ^ 7 - 1 from by norm_num,
    Nat.testBit_two_pow_sub_one, show (128 : ℕ) = 2 ^ 7 from by norm_num,
    Nat.testBit_mod_two_pow, Bool.and_comm]

/-- A successful account-keys read advances the offset by exactly 32 bytes
per key. -/
theorem readAccountKeys_ok_offset (bytes : List ℕ) :
    ∀ n offset keys off, readAccountKeys bytes offset n = .ok (keys, off) →
      off = offset + 32 * n := by
  intro n
  induction n with
  | zero =>
    intro offset keys off h
    simp only [readAccountKeys] at h
    injection h with h1
    injection h1 with h2 h3
    omega
  | succ k ih =>
    intro offset keys off h
    simp only [readAccountKeys] at h
    split at h
    · exact Except.noConfusion h
    · split at h
      · exact Except.noConfusion h
      · rename_i rest roff heq
        injection h with h1
        injection h1 with h2 h3
        have := ih (offset + 32) rest roff heq
        omega

/-- `calculate_risk_level` grades `Critical` exactly when a `Danger` warning
is present. -/
theorem calculate_risk_level_critical_iff (instructions : List DecodedInstruction)
    (warnings : List TransactionWarning) (total_sol_out : ℚ) :
    calculate_risk_level instructions warnings total_sol_out = RiskLevel.Critical ↔
      warnings.any (fun w => w.level == WarningLevel.Danger) = true := by
  unfold calculate_risk_level
  split_ifs with h1 h2 h3 h4 h5 <;> simp_all

/-- Claim C1: for every forwarded JSON-RPC request, the upstream target obeys
the precedence Jito method → configured endpoint → `X-Target-URL` header →
default Solana RPC; Jito methods override everything, and the header is
ignored whenever an endpoint is configured. -/
theorem c1_routing_precedence (m cfg hdr : Option String) :
    (∀ s, m = some s → s ∈ JITO_METHODS → final_target m cfg hdr = JITO_MAINNET_URL) ∧
    ((∀ s, m = some s → s ∉ JITO_METHODS) →
      ((∀ e, cfg = some e → final_target m cfg hdr = e) ∧
       (cfg = none → ∀ u, hdr = some u → final_target m cfg hdr = u) ∧
       (cfg = none → hdr = none → final_target m cfg hdr = DEFAULT_SOLANA_RPC))) := by
  constructor
  · intro s hm hmem
    subst hm
    have hj : is_jito_method (some s) = true := by
      simp only [is_jito_method, List.any_eq_true, beq_iff_eq]
      exact ⟨s, hmem, rfl⟩
    simp [final_target, hj]
  · intro hnot
    have hj : is_jito_method m = false := by
      cases m with
      | none => rfl
      | some s =>
        refine Bool.eq_false_iff.mpr ?_
        intro htrue
        simp only [is_jito_method, List.any_eq_true, beq_iff_eq] at htrue
        obtain ⟨x, hx, hxe⟩ := htrue
        exact hnot s rfl (by rw [hxe]; exact hx)
    refine ⟨?_, ?_, ?_⟩
    · intro e he
      subst he
      simp [final_target, hj]
    · intro hc u hu
      subst hc
      subst hu
      simp [final_target, hj]
    · intro hc hu
      subst hc
      subst hu
      simp [final_target, hj]

/-- Witness for C1 at concrete inputs: a Jito method beats a configured
endpoint and a header; a non-Jito method goes to the configured endpoint,
then to the header, then to the default. -/
theorem c1_routing_precedence_witness :
    final_target (some "sendBundle") (some "https://ep.example") (some "https://other")
        = JITO_MAINNET_URL ∧
    final_target (some "getSlot") (some "https://ep.example") (some "https://other")
        = "https://ep.example" ∧
    final_target (some "getSlot") none (some "https://other") = "https://other" ∧
    final_target none none none = DEFAULT_SOLANA_RPC := by
  refine ⟨?_, ?_, ?_, ?_⟩
  · exact (c1_routing_precedence (some "sendBundle") (some "https://ep.example")
      (some "https://other")).1 "sendBundle" rfl (by decide)
  · exact ((c1_routing_precedence (some "getSlot") (some "https://ep.example")
      (some "https://other")).2 (by intro s hs; cases hs; decide)).1 "https://ep.example" rfl
  · exact (((c1_routing_precedence (some "getSlot") none (some "https://other")).2
      (by intro s hs; cases hs; decide)).2).1 rfl "https://other" rfl
  · exact (((c1_routing_precedence none none none).2
      (by intro s hs; cases hs)).2).2 rfl rfl

/-- Claim C3: the computed risk grade is the grade of the first matching rule
of the spec's ordered rule list, and a rule always matches (the final rule is
unconditional), so the rules are total. -/
theorem c3_risk_first_matching_rule (instructions : List DecodedInstruction)
    (warnings : List TransactionWarning) (total_sol_out : ℚ) :
    firstMatchingRule (riskGradeRules instructions warnings total_sol_out)
      = some (calculate_risk_level instructions warnings total_sol_out) := by
  unfold firstMatchingRule riskGradeRules calculate_risk_level
  by_cases h1 : warnings.any (fun w => w.level == WarningLevel.Danger) = true
  all_goals by_cases h2 : total_sol_out > 10
  all_goals by_cases h3 : total_sol_out > 1
  all_goals by_cases h4 : 3 < (instructions.filter (fun i => i.details.isUnknown)).length
  all_goals by_cases h5 : instructions.any (fun i => i.details.isTokenApprove) = true
  all_goals simp [List.find?, h1, h2, h3, h4, h5]

/-- Claim C4: decoding the canonical compact-u16 encoding of any value below
2¹⁶ returns exactly that value together with the number of encoded bytes
(1, 2, or 3, per the `b0.low7 | (b1.low7 << 7) | (b2 << 14)` formula). -/
theorem c4_compact_u16_roundtrip (v : ℕ) (h : v < 65536) :
    read_compact_u16 (encodeCompactU16 v) 0 = .ok (v, (encodeCompactU16 v).length) := by
  unfold encodeCompactU16
  by_cases h1 : v < 128
  · simp [read_compact_u16, h1, List.get?]
  · by_cases h2 : v < 16384
    · have hb0 : ¬(v % 128 + 128 < 128) := by omega
      have hb1 : v / 128 < 128 := by omega
      simp only [h1, h2, if_false, if_true, read_compact_u16, List.get?, List.length_cons,
        List.length_nil, hb0, hb1, if_pos, if_neg, ite_false, ite_true]
      rw [land_127_eq_mod]
      have e1 : (v % 128 + 128) % 128 = v % 128 := by omega
      rw [e1]
      have hlt : v % 128 < 2 ^ 7 := by
        have : (2 : ℕ) ^ 7 = 128 := by norm_num
        omega
      have hlor := lor_shiftLeft_eq_add 7 (v % 128) (v / 128) hlt
      rw [show (2 : ℕ) ^ 7 = 128 from by norm_num] at hlor
      rw [hlor]
      have : v % 128 + 128 * (v / 128) = v := by omega
      simp [this]
    · have hb0 : ¬(v % 128 + 128 < 128) := by omega
      have hb1 : ¬(v / 128 % 128 + 128 < 128) := by omega
      simp only [h1, h2, if_false, if_true, read_compact_u16, List.get?, List.length_cons,
        List.length_nil, hb0, hb1, if_pos, if_neg, ite_false, ite_true]
      rw [land_127_eq_mod, land_127_eq_mod]
      have e1 : (v % 128 + 128) % 128 = v % 128 := by omega
      have e2 : (v / 128 % 128 + 128) % 128 = v / 128 % 128 := by omega
      rw [e1, e2]
      have hlt7 : v % 128 < 2 ^ 7 := by
        have : (2 : ℕ) ^ 7 = 128 := by norm_num
        omega
      have hAB := lor_shiftLeft_eq_add 7 (v % 128) (v / 128 % 128) hlt7
      rw [show (2 : ℕ) ^ 7 = 128 from by norm_num] at hAB
      rw [hAB]
      have e3 : v % 128 + 128 * (v / 128 % 128) = v % 16384 := by omega
      rw [e3]
      have hC : ((v / 16384) <<< 14) % 65536 = (v / 16384) <<< 14 := by
        apply Nat.mod_eq_of_lt
        rw [Nat.shiftLeft_eq, show (2 : ℕ) ^ 14 = 16384 from by norm_num]
        omega
      rw [hC]
      have hlt14 : v % 16384 < 2 ^ 14 := by
        have : (2 : ℕ) ^ 14 = 16384 := by norm_num
        omega
      have hfin := lor_shiftLeft_eq_add 14 (v % 16384) (v / 16384) hlt14
      rw [show (2 : ℕ) ^ 14 = 16384 from by norm_num] at hfin
      rw [hfin]
      have : v % 16384 + 16384 * (v / 16384) = v := by omega
      simp [this]

/-- Witness for C4 at a three-byte value: 0x4321 decodes back from its
canonical encoding. -/
theorem c4_compact_u16_roundtrip_witness :
    17185 < 65536 ∧
      read_compact_u16 (encodeCompactU16 17185) 0 = .ok (17185, (encodeCompactU16 17185).length) :=
  ⟨by decide, c4_compact_u16_roundtrip 17185 (by decide)⟩

set_option maxRecDepth 8000 in
unseal Rat.add Rat.mul Rat.sub in
/-- Claim C2: decoding a transaction whose single instruction is a
Token-program `Approve` (discriminator 4) with amount `u64::MAX` yields
exactly one warning — a `Danger` warning titled `"Unlimited Token Approval"`
— and the decoded transaction's risk level is `Critical`. -/
theorem c2_unlimited_approval_critical :
    ((parse_transaction_bytes c2Bytes).toOption.map (fun t =>
      (t.warnings.map (fun w => (w.level, w.title)), t.risk_level)))
    = some ([(WarningLevel.Danger, "Unlimited Token Approval")], RiskLevel.Critical) := by
  decide

/-- Claim C5 (code bug): the `GET /health` response hard-codes
`Content-Length: 35`, but its body is the 33-byte JSON object
`{"status":"ok","proxy":"running"}`, so the declared length matches neither
the body's true length nor the claim's 35-byte body. -/
theorem c5_health_content_length_bug :
    healthResponse =
      "HTTP/1.1 200 OK\r\nContent-Type: application/json\r\nAccess-Control-Allow-Origin: *\r\nContent-Length: "
        ++ toString healthDeclaredContentLength ++ "\r\n\r\n" ++ healthBody ∧
    healthBody.length = 33 ∧
    healthDeclaredContentLength = 35 ∧
    healthBody.length ≠ healthDeclaredContentLength := by
  refine ⟨by decide, by decide, rfl, by decide⟩

/-- Claim C6 counterexample: `c6CountOverrunBytes` declares five instructions
with no bytes left after the count, yet decoding succeeds (with zero parsed
instructions) instead of returning a truncation error. -/
theorem c6_truncation_counterexample :
    (parse_transaction_bytes c6CountOverrunBytes).isOk = true := by
  decide

/-- Claim C6 as amended: truncation in the fixed layout — a message shorter
than its 3-byte header, a compact-u16 read starting at or past the end, or
account keys / recent blockhash overrunning the input — returns an error;
but inside the instruction list, a declared instruction count larger than
the remaining bytes merely stops the loop, and an instruction whose declared
data length overruns the input is decoded with empty data, both yielding a
successful decode. -/
theorem c6_truncation_amended :
    (∀ bytes ns, bytes.length < 3 → (parse_message bytes ns).isOk = false) ∧
    (∀ bytes offset, bytes.length ≤ offset → (read_compact_u16 bytes offset).isOk = false) ∧
    (∀ bytes ns n l, read_compact_u16 bytes 3 = .ok (n, l) →
      bytes.length < 3 + l + 32 * n + 32 → (parse_message bytes ns).isOk = false) ∧
    (∀ bytes keys offset n, bytes.length ≤ offset →
      parseInstructions bytes keys offset n = .ok ([], [], 0)) ∧
    (parse_transaction_bytes c6DataOverrunBytes).isOk = true := by
  refine ⟨?_, ?_, ?_, ?_, ?_⟩
  · intro bytes ns h
    by_cases he : bytes.isEmpty <;>
      simp [parse_message, he, h, Except.isOk, Except.toBool]
  · intro bytes offset h
    have hnone : bytes[offset]? = none := by
      rw [← List.get?_eq_getElem?]
      exact List.get?_eq_none.mpr h
    simp [read_compact_u16, hnone, Except.isOk, Except.toBool]
  · intro bytes ns n l h hlen
    have hlen3 : 3 < bytes.length := by
      by_contra hc
      have hnone : bytes.get? 3 = none := List.get?_eq_none.mpr (by omega)
      rw [read_compact_u16, hnone] at h
      exact Except.noConfusion h
    have hne : bytes.isEmpty = false := by
      cases bytes with
      | nil => simp at hlen3
      | cons a l2 => rfl
    have hnl : ¬bytes.length < 3 := by omega
    simp only [parse_message, hne, Bool.false_eq_true, if_false, hnl, h]
    cases hr : readAccountKeys bytes (3 + l) n with
    | error e => simp [hr, Except.isOk, Except.toBool]
    | ok p =>
      obtain ⟨keys, off⟩ := p
      have hoff := readAccountKeys_ok_offset bytes n (3 + l) keys off hr
      have hbh : off + 32 > bytes.length := by omega
      simp [hr, hbh, Except.isOk, Except.toBool]
  · intro bytes keys offset n h
    cases n with
    | zero => rfl
    | succ k => simp [parseInstructions, h]
  · decide

/-- Witness for C6's amended statement at concrete inputs: a two-byte
message, an empty compact-u16 read, a message whose two declared keys
overrun the input, and an instruction loop starting at the end of the
input. -/
theorem c6_truncation_amended_witness :
    (parse_message [0, 0] 0).isOk = false ∧
    (read_compact_u16 [] 0).isOk = false ∧
    (parse_message ([1, 0, 0, 2] ++ List.replicate 32 1) 0).isOk = false ∧
    parseInstructions [] [] 0 5 = .ok ([], [], 0) := by
  refine ⟨c6_truncation_amended.1 [0, 0] 0 (by decide),
    c6_truncation_amended.2.1 [] 0 (by decide), ?_,
    c6_truncation_amended.2.2.2.1 [] [] 0 5 (by decide)⟩
  exact c6_truncation_amended.2.2.1 ([1, 0, 0, 2] ++ List.replicate 32 1) 0 2 1
    (by decide) (by decide)

/-- Claim C7 counterexample: through `POST /control/set_rpc` a url that does
not begin with `http://` or `https://` is stored rather than rejected (the
endpoint changes), and an empty-string url is stored as `Some("")` rather
than clearing the endpoint to null. -/
theorem c7_set_rpc_counterexample :
    control_set_rpc (some "notaurl") none = some "notaurl" ∧
    control_set_rpc (some "") (some "https://old.example") = some "" ∧
    control_set_rpc (some "") (some "https://old.example") ≠ none := by
  refine ⟨rfl, rfl, by decide⟩

/-- Claim C7 as amended: `POST /control/set_rpc` applies no validation — the
body's url value, empty string included, is stored into `upstreamEndpoint`
unchanged, and a missing url clears it; the `http(s)://`-prefix check and the
empty-string-clears rule belong to the desktop `set_rpc_endpoint` command,
which errors (leaving the value unchanged) on other strings, clears on
whitespace-only input, and stores the trimmed url otherwise. -/
theorem c7_set_rpc_amended :
    (∀ url current, control_set_rpc (some url) current = some url) ∧
    (∀ current, control_set_rpc none current = none) ∧
    (∀ e current, (strTrim e).isEmpty = false →
      (strStartsWith (strTrim e) ("http://") || strStartsWith (strTrim e) ("https://")) = false →
      (tauri_set_rpc_endpoint e current).isOk = false) ∧
    (∀ e current, (strTrim e).isEmpty = true → tauri_set_rpc_endpoint e current = .ok none) ∧
    (∀ e current, (strTrim e).isEmpty = false →
      (strStartsWith (strTrim e) ("http://") || strStartsWith (strTrim e) ("https://")) = true →
      tauri_set_rpc_endpoint e current = .ok (some (strTrim e))) := by
  refine ⟨fun _ _ => rfl, fun _ => rfl, ?_, ?_, ?_⟩ <;>
    intro e current h1 <;>
    simp_all [tauri_set_rpc_endpoint, Except.isOk, Except.toBool]

/-- Witness for C7's amended statement at concrete inputs. -/
theorem c7_set_rpc_amended_witness :
    control_set_rpc (some "ws://x") none = some "ws://x" ∧
    control_set_rpc none (some "https://a.example") = none ∧
    (tauri_set_rpc_endpoint "notaurl" none).isOk = false ∧
    tauri_set_rpc_endpoint "   " (some "https://a.example") = .ok none ∧
    tauri_set_rpc_endpoint "https://rpc.example" none = .ok (some "https://rpc.example") := by
  refine ⟨c7_set_rpc_amended.1 "ws://x" none,
    c7_set_rpc_amended.2.1 (some "https://a.example"),
    c7_set_rpc_amended.2.2.1 "notaurl" none (by decide) (by decide),
    c7_set_rpc_amended.2.2.2.1 "   " (some "https://a.example") (by decide), ?_⟩
  have := c7_set_rpc_amended.2.2.2.2 "https://rpc.example" none (by decide) (by decide)
  simpa using this

/-- A parsed digit string always fits in a `u8`. -/
theorem parseU8Digits_le_255 (ds : List Char) (n : ℕ) (h : parseU8Digits ds = some n) :
    n ≤ 255 := by
  unfold parseU8Digits at h
  split_ifs at h with h1 h2 h3
  · injection h with h4
    omega

/-- A parsed percentage always fits in a `u8`. -/
theorem parseU8_le_255 (cs : List Char) (n : ℕ) (h : parseU8 cs = some n) : n ≤ 255 := by
  unfold parseU8 at h
  split at h <;> exact parseU8Digits_le_255 _ _ h

/-- Claim C8 counterexample: the relay log line `Bootstrapped 150% (weird)`
parses to 150 — no clamping to 100 happens — and a run that sees this line
stores a `bootstrapProgress` of 150, which exceeds 100. -/
theorem c8_bootstrap_counterexample :
    parse_bootstrap_progress ("Bootstrapped 150% (weird)") = some 150 ∧
    runLines [("Bootstrapped 150% (weird)")] 0 = 150 ∧ 100 < 150 := by
  refine ⟨by decide, by decide, by decide⟩

/-- Claim C8 as amended: the stored value is not clamped to 0..=100; it is
constrained only by the `u8` parse, so any matched percentage up to 255 is
stored as-is and `bootstrapProgress` is bounded by 255 after any sequence of
log lines (values above 255 fail to parse and leave the field unchanged). -/
theorem c8_bootstrap_amended :
    (∀ line n, parse_bootstrap_progress line = some n → n ≤ 255) ∧
    (∀ lines init, init ≤ 255 → runLines lines init ≤ 255) := by
  have hline : ∀ line n, parse_bootstrap_progress line = some n → n ≤ 255 := by
    intro line n h
    unfold parse_bootstrap_progress at h
    split at h
    · exact Option.noConfusion h
    · split at h
      · exact Option.noConfusion h
      · exact parseU8_le_255 _ _ h
  refine ⟨hline, ?_⟩
  intro lines
  induction lines with
  | nil => intro init h; simpa [runLines] using h
  | cons l ls ih =>
    intro init h
    have hstep : updateProgress init l ≤ 255 := by
      unfold updateProgress
      split
      · rename_i p hp
        exact hline l p hp
      · exact h
    simpa [runLines, List.foldl_cons] using ih (updateProgress init l) hstep

/-- Witness for C8's amended statement at concrete inputs. -/
theorem c8_bootstrap_amended_witness :
    parse_bootstrap_progress ("Bootstrapped 80% (done)") = some 80 ∧ 80 ≤ 255 ∧
    runLines [("Bootstrapped 80% (done)"), ("Bootstrapped 150% (weird)")] 0 ≤ 255 := by
  refine ⟨by decide,
    c8_bootstrap_amended.1 ("Bootstrapped 80% (done)") 80 (by decide),
    c8_bootstrap_amended.2 [("Bootstrapped 80% (done)"), ("Bootstrapped 150% (weird)")] 0
      (by decide)⟩

/-- Claim C9: the decoder is total — on every input string and every byte
list it returns `.ok` or `.error` — and every out-of-range account or
program-id lookup resolves to the string `"Unknown"`: a message-level index
past the key list, an instruction-local index past the index list, or an
instruction-local index whose referenced message index is past the key list. -/
theorem c9_decoder_totality :
    (∀ s, (∃ t, decode_transaction s = .ok t) ∨ (∃ e, decode_transaction s = .error e)) ∧
    (∀ bytes, (∃ t, parse_transaction_bytes bytes = .ok t) ∨
      (∃ e, parse_transaction_bytes bytes = .error e)) ∧
    (∀ keys i, keys.length ≤ i → lookupAccountKey keys i = "Unknown") ∧
    (∀ idxs keys i, idxs.length ≤ i → get_account idxs keys i = "Unknown") ∧
    (∀ idxs keys i j, idxs.get? i = some j → keys.length ≤ j →
      get_account idxs keys i = "Unknown") := by
  refine ⟨?_, ?_, ?_, ?_, ?_⟩
  · intro s
    cases h : decode_transaction s with
    | ok t => exact Or.inl ⟨t, rfl⟩
    | error e => exact Or.inr ⟨e, rfl⟩
  · intro bytes
    cases h : parse_transaction_bytes bytes with
    | ok t => exact Or.inl ⟨t, rfl⟩
    | error e => exact Or.inr ⟨e, rfl⟩
  · intro keys i h
    have hk : keys[i]? = none := by
      rw [← List.get?_eq_getElem?]
      exact List.get?_eq_none.mpr h
    simp [lookupAccountKey, hk]
  · intro idxs keys i h
    have hk : idxs[i]? = none := by
      rw [← List.get?_eq_getElem?]
      exact List.get?_eq_none.mpr h
    simp [get_account, hk]
  · intro idxs keys i j hij hj
    have hij2 : idxs[i]? = some j := by
      rw [← List.get?_eq_getElem?]
      exact hij
    have hk : keys[j]? = none := by
      rw [← List.get?_eq_getElem?]
      exact List.get?_eq_none.mpr hj
    simp [get_account, hij2, hk]

/-- Witness for C9's account-resolution parts at concrete inputs. -/
theorem c9_decoder_totality_witness :
    lookupAccountKey [] 5 = "Unknown" ∧
    get_account [] ["k"] 0 = "Unknown" ∧
    get_account [3] ["k"] 0 = "Unknown" := by
  refine ⟨c9_decoder_totality.2.2.1 [] 5 (by decide),
    c9_decoder_totality.2.2.2.1 [] ["k"] 0 (by decide),
    c9_decoder_totality.2.2.2.2 [3] ["k"] 0 3 (by decide) (by decide)⟩

/-- Claim C10: a successfully decoded transaction has risk level `Critical`
exactly when its warning list contains a `Danger` warning — grading happens
before the high-value warning is appended, but that warning's level is
`Warning`, so it affects neither side of the equivalence. -/
theorem c10_critical_iff_danger (bytes : List ℕ) (ns : ℕ) (t : DecodedTransaction)
    (h : parse_message bytes ns = .ok t) :
    (t.risk_level = RiskLevel.Critical ↔
      t.warnings.any (fun w => w.level == WarningLevel.Danger) = true) := by
  unfold parse_message at h
  split at h
  · exact Except.noConfusion h
  split at h
  · exact Except.noConfusion h
  split at h
  · exact Except.noConfusion h
  split at h
  · exact Except.noConfusion h
  split at h
  · exact Except.noConfusion h
  split at h
  · exact Except.noConfusion h
  split at h
  · exact Except.noConfusion h
  injection h with h1
  subst h1
  have hhv : ∀ q : ℚ,
      (if q > 1 then
        [⟨WarningLevel.Warning, "High Value Transaction",
          "This transaction sends " ++ formatFixed q 4 ++ " SOL"⟩]
      else ([] : List TransactionWarning)).any
        (fun w => w.level == WarningLevel.Danger) = false := by
    intro q
    split <;> rfl
  simp [calculate_risk_level_critical_iff, List.any_append, hhv]

set_option maxRecDepth 8000 in
unseal Rat.add Rat.mul Rat.sub in
/-- Witness for C10 at a concrete message with no instructions: the decode
succeeds, is not `Critical`, and carries no `Danger` warning. -/
theorem c10_critical_iff_danger_witness :
    (emptyMessageDecoded.risk_level = RiskLevel.Critical ↔
      emptyMessageDecoded.warnings.any (fun w => w.level == WarningLevel.Danger) = true) :=
  c10_critical_iff_danger emptyMessageBytes 0 emptyMessageDecoded (by decide)
